import Mathlib

/-!
Shallow embedding of the branch-transition orchestration core of the `gud`
command-line tool (src/command.rs).  Every primitive invocation of the
external `git` executable is modelled through an environment `Env` that
answers each invocation (given the trace of invocations issued so far) with
either a launch failure or a captured-stdout byte stream, already split into
"decodes to this text" / "fails to decode with this message".  Each Rust
function becomes a state-passing function over the ordered trace of issued
primitive commands, returning an `Outcome` that distinguishes ordinary
success, an ordinary error result (Rust `Err(String)`) and a Rust panic
(`unwrap` / `todo!`).  Machine integers (`usize`) are modelled as `Nat`.
-/

/-- An argument list handed to the external tool, e.g. `["checkout", "main"]`. -/
abbrev Args := List String

/-- What the external tool does on one invocation: either the process fails to
launch (Rust `io::Error`, stringified), or it runs and its captured stdout
either decodes to text or fails to decode (the `Err` side of
`String::from_utf8`, stringified). -/
inductive RawResult where
  | launchFailure (msg : String)
  | output (stdout : Except String String)

/-- The external collaborator: given the trace of previously issued
invocations and the current argument list, what does the tool do. -/
structure Env where
  respond : List Args → Args → RawResult

/-- Result of running a piece of the program: ordinary value, ordinary error
result (Rust `Err(String)`), or a Rust panic. -/
inductive Outcome (α : Type) where
  | ok (a : α)
  | err (msg : String)
  | panicked (msg : String)
deriving DecidableEq

/-- The embedding monad: an environment plus the trace of issued primitive
commands, threaded in order. -/
def GitM (α : Type) : Type := Env → List Args → Outcome α × List Args

def GitM.pure {α : Type} (a : α) : GitM α := fun _ t => (Outcome.ok a, t)

def GitM.bind {α β : Type} (m : GitM α) (f : α → GitM β) : GitM β := fun env t =>
  match m env t with
  | (Outcome.ok a, t₁) => f a env t₁
  | (Outcome.err e, t₁) => (Outcome.err e, t₁)
  | (Outcome.panicked p, t₁) => (Outcome.panicked p, t₁)

/-- Rust `Err(e)?` propagation started explicitly. -/
def GitM.fail {α : Type} (e : String) : GitM α := fun _ t => (Outcome.err e, t)

/-- Rust `todo!()`: always panics with this fixed message. -/
def GitM.todoPanic {α : Type} : GitM α := fun _ t =>
  (Outcome.panicked "not yet implemented", t)

/- ### Character-list string helpers (kept kernel-reduction friendly) -/

/-- Both-ends whitespace trim on a character list (Rust `str::trim`). -/
def trimChars (l : List Char) : List Char :=
  ((l.dropWhile Char.isWhitespace).reverse.dropWhile Char.isWhitespace).reverse

/-- Rust `str::trim`, modelled on the character list of the string. -/
def strTrim (s : String) : String := String.mk (trimChars s.toList)

/-- `isLeadOf needle hay`: `needle` is an initial segment of `hay`. -/
def isLeadOf : List Char → List Char → Bool
  | [], _ => true
  | _ :: _, [] => false
  | p :: ps, c :: cs => p == c && isLeadOf ps cs

/-- `containsSub hay needle`: `needle` occurs as a contiguous substring of
`hay` (Rust `str::contains` with a string pattern). -/
def containsSub : List Char → List Char → Bool
  | [], needle => needle.isEmpty
  | c :: hay, needle => isLeadOf needle (c :: hay) || containsSub hay needle

/-- Rust `String::contains(&str)`. -/
def str_contains (hay needle : String) : Bool :=
  containsSub hay.toList needle.toList

/-- Drop the optional leading `+` sign accepted by Rust integer parsing. -/
def stripPlus : List Char → List Char
  | '+' :: rest => rest
  | cs => cs

/-- Rust `str::parse::<usize>()`: an optional leading `+` sign followed by one
or more ASCII digits.  `usize` is modelled as unbounded `Nat` (the counts in
question are commit counts; overflow is not modelled). -/
def parse_usize (s : String) : Except String Nat :=
  let cs := stripPlus s.toList
  if cs.isEmpty then Except.error "cannot parse integer from empty string"
  else if cs.all Char.isDigit then
    Except.ok (cs.foldl (fun acc c => acc * 10 + (c.toNat - '0'.toNat)) 0)
  else Except.error "invalid digit found in string"

/-- Modelled from the spec's words: the trimmed output of a count query is "a
valid non-negative integer" when it is an optional `+` sign followed by one or
more decimal digits.  Used to compare the code's parser against the spec's
Parse-Error condition. -/
def validNonNegIntSpec (s : String) : Bool :=
  let cs := stripPlus s.toList
  !cs.isEmpty && cs.all Char.isDigit

/-- Discriminator: did the count-query parse end in the error case? -/
def isParseError : Except String Nat → Bool
  | Except.error _ => true
  | Except.ok _ => false

/- ### The stash-listing parser (the regex `(stash@\x7b[0-9]+\x7d): (On [^\n]*)`) -/

/-- One parsed stash-listing record. -/
structure Stash where
  reference : String
  message : String
deriving DecidableEq

/-- Strip a literal leading segment, or fail. -/
def stripLead : List Char → List Char → Option (List Char)
  | [], cs => some cs
  | _ :: _, [] => none
  | p :: ps, c :: cs => if p == c then stripLead ps cs else none

/-- Try to match the stash-listing pattern at the very start of `l`: the
literal `stash@\x7b`, one or more ASCII digits, the literal `\x7d: `, then a
message `On ` followed by the rest of the line.  Returns the captured record
and the unconsumed remainder.  This is the unique match a regex engine finds
at this position: the digit run is maximal (a digit run followed by anything
but `\x7d` cannot match, since `\x7d` is not a digit) and the message extends
greedily to the end of the line. -/
def matchStashAt (l : List Char) : Option (Stash × List Char) :=
  match stripLead ("stash@\x7b".toList) l with
  | none => none
  | some l1 =>
    let ds := l1.takeWhile Char.isDigit
    let l2 := l1.dropWhile Char.isDigit
    if ds.isEmpty then none
    else
      match stripLead ("\x7d: On ".toList) l2 with
      | none => none
      | some l3 =>
        let msg := l3.takeWhile (fun c => c != '\n')
        let rest := l3.dropWhile (fun c => c != '\n')
        some (⟨String.mk ("stash@\x7b".toList ++ ds ++ ['\x7d']),
               String.mk ("On ".toList ++ msg)⟩, rest)

/-- Fuel-indexed scanner: at each position try the pattern; on a match, emit
the record and continue after it, otherwise advance one character.  Structural
recursion on the fuel keeps the definition kernel-reducible; every step
strictly shrinks the text (`matchStashAt_some_length`), so fuel `l.length`
is always enough — `scanStashes_fuel_sufficient` below proves the fueled
scanner satisfies the intended recurrence. -/
def scanAux : Nat → List Char → List Stash
  | 0, _ => []
  | fuel + 1, l =>
    match matchStashAt l with
    | some (s, rest) => s :: scanAux fuel rest
    | none =>
      match l with
      | [] => []
      | _ :: tl => scanAux fuel tl

/-- Repeatedly find the leftmost, non-overlapping matches of the stash-listing
pattern in `l`, in order (Rust `Regex::captures_iter`). -/
def scanStashes (l : List Char) : List Stash := scanAux l.length l

/- ### The git functions of src/command.rs -/

/-- `git_with_output` (src/command.rs): invoke the external tool, record the
invocation in the trace.  A launch failure becomes an `Err` result
(`map_err(|e| e.to_string())`); on a successful launch the captured stdout is
decoded with `String::from_utf8(o.stdout).unwrap()`, so a decode failure is a
panic, not an error result.  The debug logging branch does not alter the
returned value and is not modelled. -/
def git_with_output (args : Args) : GitM String := fun env t =>
  match env.respond t args with
  | RawResult.launchFailure e => (Outcome.err e, t ++ [args])
  | RawResult.output (Except.error e) => (Outcome.panicked e, t ++ [args])
  | RawResult.output (Except.ok s) => (Outcome.ok s, t ++ [args])

/-- `git` (src/command.rs): `git_with_output(args).map(|_| ())`. -/
def git (args : Args) : GitM Unit :=
  GitM.bind (git_with_output args) (fun _ => GitM.pure ())

/-- `sync` was forward-declared in the Rust file; here the pieces come first. -/

def stage (pattern : String) : GitM Unit :=
  git (["add", pattern])

def unstage (pattern : String) : GitM Unit :=
  git (["reset", pattern])

def get_branch_name : GitM String :=
  GitM.bind (git_with_output (["rev-parse", "--abbrev-ref", "HEAD"]))
    (fun o => GitM.pure (strTrim o))

/-- `stash_name_for_branch` (src/command.rs):
`format!("gud_local_changes:\x7b\x7d", branch_name)`. -/
def stash_name_for_branch (branch_name : String) : String :=
  "gud_local_changes:" ++ branch_name

/-- `stash_branch_changes` (src/command.rs). -/
def stash_branch_changes (keep : Bool) : GitM Unit :=
  GitM.bind get_branch_name (fun branch_name =>
    let stash_name := stash_name_for_branch branch_name
    GitM.bind (stage (".")) (fun _ =>
      if keep then
        GitM.bind (git (["stash", "push", "-k", "-m", stash_name]))
          (fun _ => unstage ("."))
      else
        git (["stash", "push", "-m", stash_name])))

/-- `list_stashes` (src/command.rs): run `git stash list` and scan the output
with the regex. -/
def list_stashes : GitM (List Stash) :=
  GitM.bind (git_with_output (["stash", "list"]))
    (fun output => GitM.pure (scanStashes output.toList))

/-- `pop_stashed_branch_changes` (src/command.rs). -/
def pop_stashed_branch_changes : GitM Unit :=
  GitM.bind get_branch_name (fun branch_name =>
    let stash_name := stash_name_for_branch branch_name
    GitM.bind list_stashes (fun stashes =>
      match stashes.find? (fun s => str_contains s.message stash_name) with
      | some stash =>
          GitM.bind (git (["stash", "pop", stash.reference]))
            (fun _ => unstage ("."))
      | none => GitM.pure ()))

/-- `switch` (src/command.rs). -/
def switch (branch_name : String) : GitM Unit :=
  GitM.bind (stash_branch_changes false) (fun _ =>
    GitM.bind (git (["checkout", branch_name])) (fun _ =>
      pop_stashed_branch_changes))

/-- `commits_ahead` (src/command.rs): `git rev-list origin/b..b --count`,
then parse the trimmed output as `usize`, turning a parse failure into an
error result (`map_err(|e| e.to_string())`). -/
def commits_ahead : GitM Nat :=
  GitM.bind get_branch_name (fun branch_name =>
    GitM.bind
      (git_with_output
        (["rev-list", "origin/" ++ branch_name ++ ".." ++ branch_name, "--count"]))
      (fun output =>
        match parse_usize (strTrim output) with
        | Except.ok n => GitM.pure n
        | Except.error e => GitM.fail e))

/-- `commits_behind` (src/command.rs): `git rev-list b..origin/b --count`. -/
def commits_behind : GitM Nat :=
  GitM.bind get_branch_name (fun branch_name =>
    GitM.bind
      (git_with_output
        (["rev-list", branch_name ++ "..origin/" ++ branch_name, "--count"]))
      (fun output =>
        match parse_usize (strTrim output) with
        | Except.ok n => GitM.pure n
        | Except.error e => GitM.fail e))

/-- `sync` (src/command.rs). -/
def sync : GitM (Nat × Nat) :=
  GitM.bind (git (["fetch"])) (fun _ =>
    GitM.bind commits_ahead (fun ahead =>
      GitM.bind commits_behind (fun behind =>
        GitM.bind (git (["pull", "--rebase"])) (fun _ =>
          GitM.bind (git (["push"])) (fun _ =>
            GitM.pure (ahead, behind))))))

/-- The CLI subcommands (src/command.rs `enum Command`). -/
inductive Command where
  | Clone (url : String)
  | Sync
  | Status
  | History
  | Stage (pattern : String)
  | Unstage (pattern : String)
  | Clear
  | Commit (message : String)
  | Switch (branch_name : String)
  | Branch (branch_name : String)
  | Undo
  | Redo
  | Rewrite
  | Rebase (other_branch : String)

/-- `Command::perform` (src/command.rs).  `println!` calls are pure console
output and are not part of the embedded state; `todo!()` is a panic. -/
def Command.perform : Command → GitM Unit
  | Command.Clone url => git (["clone", url])
  | Command.Sync =>
      GitM.bind sync (fun _ => GitM.pure ())
  | Command.Status =>
      GitM.bind get_branch_name (fun _ =>
        GitM.bind (git_with_output (["status", "--short"])) (fun _ =>
          GitM.pure ()))
  | Command.History => GitM.todoPanic
  | Command.Stage pattern => stage pattern
  | Command.Unstage pattern => unstage pattern
  | Command.Clear => git (["reset", "--hard"])
  | Command.Commit message =>
      GitM.bind (git (["commit", "-m", message])) (fun _ =>
        GitM.bind sync (fun _ => GitM.pure ()))
  | Command.Switch branch_name => switch branch_name
  | Command.Branch branch_name =>
      GitM.bind (stash_branch_changes true) (fun _ =>
        git (["checkout", "-b", branch_name]))
  | Command.Undo => GitM.todoPanic
  | Command.Redo => GitM.todoPanic
  | Command.Rewrite => GitM.todoPanic
  | Command.Rebase other_branch =>
      GitM.bind get_branch_name (fun current_branch =>
        GitM.bind (switch other_branch) (fun _ =>
          GitM.bind sync (fun _ =>
            GitM.bind (switch current_branch) (fun _ =>
              git (["rebase", other_branch])))))

/- ### Trace discipline -/

/-- `OnlyIssues m S`: whatever the environment answers, running `m` only ever
appends invocations satisfying `S` to the trace. -/
def OnlyIssues {α : Type} (m : GitM α) (S : Args → Prop) : Prop :=
  ∀ (env : Env) (t : List Args) (r : Outcome α) (t' : List Args),
    m env t = (r, t') → ∃ ext, t' = t ++ ext ∧ ∀ a ∈ ext, S a

/-- The shape every record produced by the stash-listing parser has: a
reference `stash@\x7bN\x7d` with a non-empty run of digits `N`, and a message
beginning with `On `. -/
def stashRecShape (s : Stash) : Prop :=
  s.reference.toList.take 7 = "stash@\x7b".toList
  ∧ (s.reference.toList.drop 7).getLast? = some '\x7d'
  ∧ (s.reference.toList.drop 7).dropLast ≠ []
  ∧ (s.reference.toList.drop 7).dropLast.all Char.isDigit = true
  ∧ s.message.toList.take 3 = "On ".toList

/- ### Concrete environments used to witness the theorems -/

/-- All invocations succeed and print nothing; the current branch is `main`;
checking out `dev` fails to launch. -/
def envCheckoutFails : Env :=
  ⟨fun _ args =>
    if args = (["rev-parse", "--abbrev-ref", "HEAD"] : Args) then
      RawResult.output (Except.ok ("main\n"))
    else if args = (["checkout", "dev"] : Args) then
      RawResult.launchFailure ("fatal: checkout failed")
    else RawResult.output (Except.ok (""))⟩

/-- Current branch `foo`; the stash listing holds an entry for `master` on top
of an entry for `foo`; everything else succeeds quietly. -/
def envPopInterleaved : Env :=
  ⟨fun _ args =>
    if args = (["rev-parse", "--abbrev-ref", "HEAD"] : Args) then
      RawResult.output (Except.ok ("foo\n"))
    else if args = (["stash", "list"] : Args) then
      RawResult.output (Except.ok
        ("stash@\x7b0\x7d: On master: gud_local_changes:master\nstash@\x7b1\x7d: On foo: gud_local_changes:foo\n"))
    else RawResult.output (Except.ok (""))⟩

/-- Current branch `main`; the stash listing holds a single entry for another
branch, so nothing matches; everything succeeds quietly. -/
def envPopNoMatch : Env :=
  ⟨fun _ args =>
    if args = (["rev-parse", "--abbrev-ref", "HEAD"] : Args) then
      RawResult.output (Except.ok ("main\n"))
    else if args = (["stash", "list"] : Args) then
      RawResult.output (Except.ok ("stash@\x7b0\x7d: On other: gud_local_changes:other\n"))
    else RawResult.output (Except.ok (""))⟩

/-- Current branch `main`, 2 commits ahead and 3 behind, every step succeeds. -/
def envSyncOk : Env :=
  ⟨fun _ args =>
    if args = (["rev-parse", "--abbrev-ref", "HEAD"] : Args) then
      RawResult.output (Except.ok ("main\n"))
    else if args = (["rev-list", "origin/main..main", "--count"] : Args) then
      RawResult.output (Except.ok ("2\n"))
    else if args = (["rev-list", "main..origin/main", "--count"] : Args) then
      RawResult.output (Except.ok ("3\n"))
    else RawResult.output (Except.ok (""))⟩

/-- Like `envSyncOk`, but the pull step fails to launch. -/
def envSyncPullFails : Env :=
  ⟨fun _ args =>
    if args = (["rev-parse", "--abbrev-ref", "HEAD"] : Args) then
      RawResult.output (Except.ok ("main\n"))
    else if args = (["rev-list", "origin/main..main", "--count"] : Args) then
      RawResult.output (Except.ok ("2\n"))
    else if args = (["rev-list", "main..origin/main", "--count"] : Args) then
      RawResult.output (Except.ok ("3\n"))
    else if args = (["pull", "--rebase"] : Args) then
      RawResult.launchFailure ("fatal: pull failed")
    else RawResult.output (Except.ok (""))⟩

/-- Current branch `main`; the ahead count query prints something that is not
a number. -/
def envBadCount : Env :=
  ⟨fun _ args =>
    if args = (["rev-parse", "--abbrev-ref", "HEAD"] : Args) then
      RawResult.output (Except.ok ("main\n"))
    else RawResult.output (Except.ok ("fatal: unknown revision\n"))⟩

/-- Current branch `main`; everything succeeds quietly. -/
def envAllQuiet : Env :=
  ⟨fun _ args =>
    if args = (["rev-parse", "--abbrev-ref", "HEAD"] : Args) then
      RawResult.output (Except.ok ("main\n"))
    else RawResult.output (Except.ok (""))⟩

/-- Every invocation launches, but its captured stdout is not valid text. -/
def envUndecodable : Env :=
  ⟨fun _ _ => RawResult.output (Except.error ("invalid utf-8 sequence of 1 bytes from index 0"))⟩

/-- Every invocation fails to launch. -/
def envNoGit : Env :=
  ⟨fun _ _ => RawResult.launchFailure ("No such file or directory (os error 2)")⟩

/- ### Helper lemmas -/

theorem stripLead_length :
    ∀ (p l l' : List Char), stripLead p l = some l' → l'.length + p.length = l.length := by
  intro p
  induction p with
  | nil =>
    intro l l' h
    simp [stripLead] at h
    simp [h]
  | cons q qs ih =>
    intro l l' h
    cases l with
    | nil => simp [stripLead] at h
    | cons c cs =>
      simp only [stripLead] at h
      by_cases hq : q == c
      · rw [if_pos hq] at h
        have := ih cs l' h
        simp [List.length_cons]
        omega
      · rw [if_neg hq] at h
        exact absurd h (by simp)

theorem dropWhile_length_le (p : Char → Bool) :
    ∀ (l : List Char), (l.dropWhile p).length ≤ l.length := by
  intro l
  induction l with
  | nil => simp [List.dropWhile]
  | cons c cs ih =>
    simp only [List.dropWhile]
    by_cases h : p c
    · rw [h]
      simp only [List.length_cons]
      omega
    · simp only [Bool.not_eq_true] at h
      rw [h]

theorem matchStashAt_some_length {l : List Char} {s : Stash} {rest : List Char}
    (h : matchStashAt l = some (s, rest)) : rest.length < l.length := by
  unfold matchStashAt at h
  cases h1 : stripLead ("stash@\x7b".toList) l with
  | none => rw [h1] at h; exact absurd h (by simp)
  | some l1 =>
    rw [h1] at h
    simp only at h
    by_cases hds : (l1.takeWhile Char.isDigit).isEmpty
    · rw [if_pos hds] at h; exact absurd h (by simp)
    · rw [if_neg hds] at h
      cases h2 : stripLead ("\x7d: On ".toList) (l1.dropWhile Char.isDigit) with
      | none => rw [h2] at h; exact absurd h (by simp)
      | some l3 =>
        rw [h2] at h
        simp only [Option.some.injEq, Prod.mk.injEq] at h
        have hlen1 := stripLead_length _ _ _ h1
        have hlen2 := stripLead_length _ _ _ h2
        have hd1 : (l1.dropWhile Char.isDigit).length ≤ l1.length :=
          dropWhile_length_le _ _
        have hd2 : (l3.dropWhile (fun c => c != '\n')).length ≤ l3.length :=
          dropWhile_length_le _ _
        have hrest : rest = l3.dropWhile (fun c => c != '\n') := h.2.symm
        rw [hrest]
        have ha : (("stash@\x7b".toList : List Char)).length = 7 := by decide
        have hc : (("\x7d: On ".toList : List Char)).length = 6 := by decide
        omega

theorem scanAux_nil (fuel : Nat) : scanAux fuel [] = [] := by
  cases fuel with
  | zero => rfl
  | succ n => rfl

theorem scanAux_congr :
    ∀ (f1 : Nat) (l : List Char) (f2 : Nat), l.length ≤ f1 → l.length ≤ f2 →
      scanAux f1 l = scanAux f2 l := by
  intro f1
  induction f1 with
  | zero =>
    intro l f2 h1 _
    have hl : l = [] := by
      cases l with
      | nil => rfl
      | cons c cs => simp [List.length_cons] at h1
    rw [hl, scanAux_nil, scanAux_nil]
  | succ n ih =>
    intro l f2 h1 h2
    cases l with
    | nil => rw [scanAux_nil, scanAux_nil]
    | cons c cs =>
      cases f2 with
      | zero => simp [List.length_cons] at h2
      | succ m =>
        simp only [scanAux]
        simp only [List.length_cons] at h1 h2
        split
        · next s rest hm =>
          have hlt : rest.length < (c :: cs).length := matchStashAt_some_length hm
          simp only [List.length_cons] at hlt
          rw [ih rest m (by omega) (by omega)]
        · next hm =>
          exact ih cs m (by omega) (by omega)

/-- The fueled scanner satisfies the intended recurrence of the regex
iterator: take the match at the current position if there is one and continue
past it, otherwise drop one character and rescan. -/
theorem scanStashes_fuel_sufficient (l : List Char) :
    scanStashes l =
      match matchStashAt l with
      | some (s, rest) => s :: scanStashes rest
      | none =>
        match l with
        | [] => []
        | _ :: tl => scanStashes tl := by
  cases l with
  | nil => rfl
  | cons c cs =>
    unfold scanStashes
    simp only [List.length_cons, scanAux]
    split
    · next s rest hm =>
      have hlt : rest.length < (c :: cs).length := matchStashAt_some_length hm
      simp only [List.length_cons] at hlt
      rw [scanAux_congr cs.length rest rest.length (by omega) (le_refl _)]
    · next hm =>
      rfl

theorem onlyIssues_pure {α : Type} (a : α) (S : Args → Prop) :
    OnlyIssues (GitM.pure a) S := by
  intro env t r t' h
  simp only [GitM.pure, Prod.mk.injEq] at h
  exact ⟨[], by simp [h.2.symm], by simp⟩

theorem onlyIssues_git_with_output (args : Args) (S : Args → Prop) (hS : S args) :
    OnlyIssues (git_with_output args) S := by
  intro env t r t' h
  refine ⟨[args], ?_, ?_⟩
  · unfold git_with_output at h
    cases hresp : env.respond t args with
    | launchFailure e => rw [hresp] at h; simp only [Prod.mk.injEq] at h; exact h.2.symm
    | output o =>
      cases o with
      | error e => rw [hresp] at h; simp only [Prod.mk.injEq] at h; exact h.2.symm
      | ok s => rw [hresp] at h; simp only [Prod.mk.injEq] at h; exact h.2.symm
  · intro a ha
    simp only [List.mem_singleton] at ha
    rw [ha]; exact hS

theorem onlyIssues_bind {α β : Type} {m : GitM α} {f : α → GitM β} {S : Args → Prop}
    (hm : OnlyIssues m S) (hf : ∀ x, OnlyIssues (f x) S) :
    OnlyIssues (GitM.bind m f) S := by
  intro env t r t' h
  unfold GitM.bind at h
  cases hrun : m env t with
  | mk r₁ t₁ =>
    rw [hrun] at h
    obtain ⟨ext₁, hext₁, hS₁⟩ := hm env t r₁ t₁ hrun
    cases r₁ with
    | ok a =>
      obtain ⟨ext₂, hext₂, hS₂⟩ := hf a env t₁ r t' h
      refine ⟨ext₁ ++ ext₂, ?_, ?_⟩
      · rw [hext₂, hext₁, List.append_assoc]
      · intro x hx
        rcases List.mem_append.mp hx with h1 | h2
        · exact hS₁ x h1
        · exact hS₂ x h2
    | err e =>
      simp only [Prod.mk.injEq] at h
      exact ⟨ext₁, by rw [← h.2, hext₁], hS₁⟩
    | panicked p =>
      simp only [Prod.mk.injEq] at h
      exact ⟨ext₁, by rw [← h.2, hext₁], hS₁⟩

theorem onlyIssues_git (args : Args) (S : Args → Prop) (hS : S args) :
    OnlyIssues (git args) S :=
  onlyIssues_bind (onlyIssues_git_with_output args S hS) (fun _ => onlyIssues_pure _ S)

theorem onlyIssues_get_branch_name (S : Args → Prop)
    (hS : S (["rev-parse", "--abbrev-ref", "HEAD"])) :
    OnlyIssues get_branch_name S :=
  onlyIssues_bind (onlyIssues_git_with_output _ S hS) (fun _ => onlyIssues_pure _ S)

/-- Every invocation `stash_branch_changes` ever issues is one of: the branch
query, `add .`, a `stash push` (with or without `-k`), `reset .` — in
particular, never a `stash pop`. -/
theorem stash_branch_changes_no_pop (keep : Bool) :
    OnlyIssues (stash_branch_changes keep)
      (fun a => a.take 2 ≠ (["stash", "pop"] : List String)) := by
  unfold stash_branch_changes
  apply onlyIssues_bind
  · exact onlyIssues_get_branch_name _ (by decide)
  · intro bn
    apply onlyIssues_bind
    · exact onlyIssues_git _ _ (by decide)
    · intro _
      cases keep with
      | false =>
        simp only [Bool.false_eq_true, if_false]
        exact onlyIssues_git _ _ (by simp)
      | true =>
        simp only [if_true]
        apply onlyIssues_bind
        · exact onlyIssues_git _ _ (by simp)
        · intro _
          exact onlyIssues_git _ _ (by decide)

/-- `git` always appends exactly its own invocation to the trace. -/
theorem git_trace (args : Args) (env : Env) (t : List Args) :
    (git args env t).2 = t ++ [args] := by
  unfold git GitM.bind git_with_output
  cases env.respond t args with
  | launchFailure e => rfl
  | output o => cases o with
    | error e => rfl
    | ok s => rfl

/- ### Claims -/

/-- Claim C4: the stash tag derived for a branch name `b` is the pure function
`b ↦ "gud_local_changes" ++ ":" ++ b`, and it is injective: two branch names
with equal tags are equal — in particular names that are leading segments of
one another get distinct tags. -/
theorem stash_tag_format_and_injective :
    (∀ b : String, stash_name_for_branch b = "gud_local_changes" ++ ":" ++ b)
    ∧ ∀ b₁ b₂ : String, stash_name_for_branch b₁ = stash_name_for_branch b₂ → b₁ = b₂ := by
  constructor
  · intro b; rfl
  · intro b₁ b₂ h
    unfold stash_name_for_branch at h
    have h2 : ("gud_local_changes:").data ++ b₁.data
        = ("gud_local_changes:").data ++ b₂.data := congrArg String.data h
    have h3 : b₁.data = b₂.data := List.append_cancel_left h2
    exact congrArg String.mk h3

/-- Witness for C4 at concrete inputs: the tag of `alpha` has the stated
format, and the injectivity implication applied at equal concrete tags. -/
theorem stash_tag_format_and_injective_witness :
    stash_name_for_branch ("alpha") = "gud_local_changes" ++ ":" ++ "alpha"
    ∧ ("alpha" : String) = "alpha" :=
  ⟨stash_tag_format_and_injective.1 ("alpha"),
   stash_tag_format_and_injective.2 ("alpha") ("alpha") (by rfl)⟩

/-- Claim C10: `perform` on the History, Undo, Redo and Rewrite commands
always panics (the `todo!()` stub) for every environment and trace; the
outcome is the `panicked` constructor, never an `ok` or `err` result. -/
theorem unimplemented_verbs_panic (env : Env) (t : List Args) :
    Command.perform (Command.History) env t = (Outcome.panicked ("not yet implemented"), t)
    ∧ Command.perform (Command.Undo) env t = (Outcome.panicked ("not yet implemented"), t)
    ∧ Command.perform (Command.Redo) env t = (Outcome.panicked ("not yet implemented"), t)
    ∧ Command.perform (Command.Rewrite) env t = (Outcome.panicked ("not yet implemented"), t) :=
  ⟨rfl, rfl, rfl, rfl⟩

/-- Claim C1: for every target branch, `switch` runs preserve
(`stash_branch_changes` with `keep_staged = false`), then the checkout of the
target, then restore (`pop_stashed_branch_changes`) on the resulting trace —
and when the checkout step fails, the verb stops with that error, the trace
ends at the checkout invocation, and no `stash pop` was ever issued, so the
preserved stash entry remains un-popped. -/
theorem switch_sequence_and_checkout_failure (env : Env) (b : String) (t₁ : List Args)
    (hstash : stash_branch_changes false env [] = (Outcome.ok (), t₁)) :
    (∀ s, env.respond t₁ (["checkout", b]) = RawResult.output (Except.ok s) →
        switch b env [] = pop_stashed_branch_changes env (t₁ ++ [["checkout", b]]))
    ∧ (∀ m, env.respond t₁ (["checkout", b]) = RawResult.launchFailure m →
        switch b env [] = (Outcome.err m, t₁ ++ [["checkout", b]])
        ∧ ∀ a ∈ t₁ ++ [["checkout", b]], a.take 2 ≠ (["stash", "pop"] : List String)) := by
  constructor
  · intro s hs
    unfold switch
    simp only [GitM.bind, hstash, git, git_with_output, GitM.pure, hs]
  · intro m hm
    constructor
    · unfold switch
      simp only [GitM.bind, hstash, git, git_with_output, GitM.pure, hm]
    · obtain ⟨ext, hext, hS⟩ :=
        stash_branch_changes_no_pop false env [] (Outcome.ok ()) t₁ hstash
      simp only [List.nil_append] at hext
      intro a ha
      rcases List.mem_append.mp ha with h1 | h2
      · exact hS a (hext ▸ h1)
      · simp only [List.mem_singleton] at h2
        subst h2
        intro hcontra
        simp at hcontra

/-- Witness for C1: on a branch `main` with a working environment in which
`checkout dev` fails to launch, `switch dev` errors out right after the
preserve invocations plus the checkout attempt — no pop was issued. -/
theorem switch_sequence_and_checkout_failure_witness :
    switch ("dev") envCheckoutFails []
      = (Outcome.err ("fatal: checkout failed"),
         [["rev-parse", "--abbrev-ref", "HEAD"], ["add", "."],
          ["stash", "push", "-m", "gud_local_changes:main"], ["checkout", "dev"]]) :=
  ((switch_sequence_and_checkout_failure envCheckoutFails ("dev")
      ([["rev-parse", "--abbrev-ref", "HEAD"], ["add", "."],
        ["stash", "push", "-m", "gud_local_changes:main"]]) (by rfl)).2
    ("fatal: checkout failed") (by rfl)).1

/-- Claim C2: restore resolves the current branch, derives its tag, lists the
stashes, and when the scan finds an entry whose message contains the tag, that
entry's message does contain the tag and the verb pops that entry by its exact
stash reference (whatever its position in the listing) and then unstages
everything (`reset .`). -/
theorem restore_pops_exact_matching_stash (env : Env) (nm L : String) (st : Stash)
    (h1 : env.respond [] (["rev-parse", "--abbrev-ref", "HEAD"])
        = RawResult.output (Except.ok nm))
    (h2 : env.respond ([["rev-parse", "--abbrev-ref", "HEAD"]]) (["stash", "list"])
        = RawResult.output (Except.ok L))
    (h3 : (scanStashes L.toList).find?
        (fun s => str_contains s.message (stash_name_for_branch (strTrim nm))) = some st) :
    str_contains st.message (stash_name_for_branch (strTrim nm)) = true
    ∧ (∀ p, env.respond
          ([["rev-parse", "--abbrev-ref", "HEAD"], ["stash", "list"]])
          (["stash", "pop", st.reference]) = RawResult.output (Except.ok p) →
        ∀ q, env.respond
          ([["rev-parse", "--abbrev-ref", "HEAD"], ["stash", "list"],
            ["stash", "pop", st.reference]])
          (["reset", "."]) = RawResult.output (Except.ok q) →
        pop_stashed_branch_changes env []
          = (Outcome.ok (),
             [["rev-parse", "--abbrev-ref", "HEAD"], ["stash", "list"],
              ["stash", "pop", st.reference], ["reset", "."]])) := by
  constructor
  · have hpred := List.find?_some h3
    simpa using hpred
  · intro p hp q hq
    unfold pop_stashed_branch_changes get_branch_name list_stashes unstage git
    simp only [GitM.bind, git_with_output, GitM.pure, List.nil_append, List.cons_append,
      List.singleton_append, List.append_nil, h1, h2, h3, hp, hq]

/-- Witness for C2: on branch `foo`, with a `master` stash entry listed on top
of the `foo` entry, restore pops exactly `stash@\x7b1\x7d` — not the top of the
stack — and then unstages. -/
theorem restore_pops_exact_matching_stash_witness :
    pop_stashed_branch_changes envPopInterleaved []
      = (Outcome.ok (),
         [["rev-parse", "--abbrev-ref", "HEAD"], ["stash", "list"],
          ["stash", "pop", "stash@\x7b1\x7d"], ["reset", "."]]) :=
  ((restore_pops_exact_matching_stash envPopInterleaved ("foo\n")
      ("stash@\x7b0\x7d: On master: gud_local_changes:master\nstash@\x7b1\x7d: On foo: gud_local_changes:foo\n")
      (⟨"stash@\x7b1\x7d", "On foo: gud_local_changes:foo"⟩)
      (by rfl) (by rfl) (by decide)).2) ("") (by rfl) ("") (by rfl)

/-- Claim C3: when no listed stash entry's message contains the current
branch's tag, restore succeeds, and the whole trace is exactly the two
read-only queries (branch name and stash listing) — no repository-mutating
primitive is issued. -/
theorem restore_without_match_is_noop (env : Env) (nm L : String)
    (h1 : env.respond [] (["rev-parse", "--abbrev-ref", "HEAD"])
        = RawResult.output (Except.ok nm))
    (h2 : env.respond ([["rev-parse", "--abbrev-ref", "HEAD"]]) (["stash", "list"])
        = RawResult.output (Except.ok L))
    (h3 : (scanStashes L.toList).find?
        (fun s => str_contains s.message (stash_name_for_branch (strTrim nm))) = none) :
    pop_stashed_branch_changes env []
      = (Outcome.ok (), [["rev-parse", "--abbrev-ref", "HEAD"], ["stash", "list"]]) := by
  unfold pop_stashed_branch_changes get_branch_name list_stashes
  simp only [GitM.bind, git_with_output, GitM.pure, List.nil_append, List.cons_append,
    List.singleton_append, h1, h2, h3]

/-- Witness for C3: on branch `main`, with only a stash entry for another
branch listed, restore returns success after the two queries. -/
theorem restore_without_match_is_noop_witness :
    pop_stashed_branch_changes envPopNoMatch []
      = (Outcome.ok (), [["rev-parse", "--abbrev-ref", "HEAD"], ["stash", "list"]]) :=
  restore_without_match_is_noop envPopNoMatch ("main\n")
    ("stash@\x7b0\x7d: On other: gud_local_changes:other\n") (by rfl) (by rfl) (by decide)

/-- Claim C5: `sync` issues, in order, fetch, the ahead count query, the
behind count query, `pull --rebase`, `push`; the reported pair `(ahead,
behind)` is the one parsed from the two count queries issued before the
integration steps; and when the pull step fails, the verb stops with that
error and the push invocation never appears in the trace. -/
theorem sync_order_reporting_and_abort (env : Env) (o1 nm oa nm2 ob : String) (a bn : Nat)
    (h1 : env.respond [] (["fetch"]) = RawResult.output (Except.ok o1))
    (h2 : env.respond ([["fetch"]]) (["rev-parse", "--abbrev-ref", "HEAD"])
        = RawResult.output (Except.ok nm))
    (h3 : env.respond ([["fetch"], ["rev-parse", "--abbrev-ref", "HEAD"]])
        (["rev-list", "origin/" ++ strTrim nm ++ ".." ++ strTrim nm, "--count"])
        = RawResult.output (Except.ok oa))
    (h4 : parse_usize (strTrim oa) = Except.ok a)
    (h5 : env.respond
        ([["fetch"], ["rev-parse", "--abbrev-ref", "HEAD"],
          ["rev-list", "origin/" ++ strTrim nm ++ ".." ++ strTrim nm, "--count"]])
        (["rev-parse", "--abbrev-ref", "HEAD"]) = RawResult.output (Except.ok nm2))
    (h6 : env.respond
        ([["fetch"], ["rev-parse", "--abbrev-ref", "HEAD"],
          ["rev-list", "origin/" ++ strTrim nm ++ ".." ++ strTrim nm, "--count"],
          ["rev-parse", "--abbrev-ref", "HEAD"]])
        (["rev-list", strTrim nm2 ++ "..origin/" ++ strTrim nm2, "--count"])
        = RawResult.output (Except.ok ob))
    (h7 : parse_usize (strTrim ob) = Except.ok bn) :
    (∀ o4, env.respond
        ([["fetch"], ["rev-parse", "--abbrev-ref", "HEAD"],
          ["rev-list", "origin/" ++ strTrim nm ++ ".." ++ strTrim nm, "--count"],
          ["rev-parse", "--abbrev-ref", "HEAD"],
          ["rev-list", strTrim nm2 ++ "..origin/" ++ strTrim nm2, "--count"]])
        (["pull", "--rebase"]) = RawResult.output (Except.ok o4) →
      ∀ o5, env.respond
        ([["fetch"], ["rev-parse", "--abbrev-ref", "HEAD"],
          ["rev-list", "origin/" ++ strTrim nm ++ ".." ++ strTrim nm, "--count"],
          ["rev-parse", "--abbrev-ref", "HEAD"],
          ["rev-list", strTrim nm2 ++ "..origin/" ++ strTrim nm2, "--count"],
          ["pull", "--rebase"]])
        (["push"]) = RawResult.output (Except.ok o5) →
      sync env []
        = (Outcome.ok (a, bn),
           [["fetch"], ["rev-parse", "--abbrev-ref", "HEAD"],
            ["rev-list", "origin/" ++ strTrim nm ++ ".." ++ strTrim nm, "--count"],
            ["rev-parse", "--abbrev-ref", "HEAD"],
            ["rev-list", strTrim nm2 ++ "..origin/" ++ strTrim nm2, "--count"],
            ["pull", "--rebase"], ["push"]]))
    ∧ (∀ m, env.respond
        ([["fetch"], ["rev-parse", "--abbrev-ref", "HEAD"],
          ["rev-list", "origin/" ++ strTrim nm ++ ".." ++ strTrim nm, "--count"],
          ["rev-parse", "--abbrev-ref", "HEAD"],
          ["rev-list", strTrim nm2 ++ "..origin/" ++ strTrim nm2, "--count"]])
        (["pull", "--rebase"]) = RawResult.launchFailure m →
      sync env []
        = (Outcome.err m,
           [["fetch"], ["rev-parse", "--abbrev-ref", "HEAD"],
            ["rev-list", "origin/" ++ strTrim nm ++ ".." ++ strTrim nm, "--count"],
            ["rev-parse", "--abbrev-ref", "HEAD"],
            ["rev-list", strTrim nm2 ++ "..origin/" ++ strTrim nm2, "--count"],
            ["pull", "--rebase"]])) := by
  constructor
  · intro o4 hpull o5 hpush
    unfold sync commits_ahead commits_behind get_branch_name git
    simp only [GitM.bind, git_with_output, GitM.pure, GitM.fail, List.nil_append,
      List.cons_append, List.singleton_append, h1, h2, h3, h4, h5, h6, h7, hpull, hpush]
  · intro m hpull
    unfold sync commits_ahead commits_behind get_branch_name git
    simp only [GitM.bind, git_with_output, GitM.pure, GitM.fail, List.nil_append,
      List.cons_append, List.singleton_append, h1, h2, h3, h4, h5, h6, h7, hpull]

/-- Witness for C5: a branch 2 ahead and 3 behind reports `(2, 3)` with the
full fetch/count/count/pull/push trace; with a failing pull, the same counts
are already computed, the verb errors, and no push is in the trace. -/
theorem sync_order_reporting_and_abort_witness :
    sync envSyncOk []
      = (Outcome.ok (2, 3),
         [["fetch"], ["rev-parse", "--abbrev-ref", "HEAD"],
          ["rev-list", "origin/main..main", "--count"],
          ["rev-parse", "--abbrev-ref", "HEAD"],
          ["rev-list", "main..origin/main", "--count"],
          ["pull", "--rebase"], ["push"]])
    ∧ sync envSyncPullFails []
      = (Outcome.err ("fatal: pull failed"),
         [["fetch"], ["rev-parse", "--abbrev-ref", "HEAD"],
          ["rev-list", "origin/main..main", "--count"],
          ["rev-parse", "--abbrev-ref", "HEAD"],
          ["rev-list", "main..origin/main", "--count"],
          ["pull", "--rebase"]]) :=
  ⟨(sync_order_reporting_and_abort envSyncOk ("") ("main\n") ("2\n") ("main\n") ("3\n") 2 3
      (by rfl) (by rfl) (by rfl) (by rfl) (by rfl) (by rfl) (by rfl)).1
      ("") (by rfl) ("") (by rfl),
   (sync_order_reporting_and_abort envSyncPullFails ("") ("main\n") ("2\n") ("main\n") ("3\n") 2 3
      (by rfl) (by rfl) (by rfl) (by rfl) (by rfl) (by rfl) (by rfl)).2
      ("fatal: pull failed") (by rfl)⟩

/-- Claim C7: `perform` on the branch-create command runs preserve with
`keep_staged = true` and then creates and checks out the new branch
(`checkout -b`) — nothing more: the final trace is preserve's invocations plus
that one checkout, and no `stash pop` (restore) is ever issued.  The staged
snapshot travels to the new branch because the preserve step used the
keep-staged stash mode. -/
theorem branch_create_keeps_staged_no_restore (env : Env) (name : String) (t₁ : List Args)
    (hstash : stash_branch_changes true env [] = (Outcome.ok (), t₁)) :
    Command.perform (Command.Branch name) env [] = git (["checkout", "-b", name]) env t₁
    ∧ (git (["checkout", "-b", name]) env t₁).2 = t₁ ++ [["checkout", "-b", name]]
    ∧ ∀ a ∈ t₁ ++ [["checkout", "-b", name]], a.take 2 ≠ (["stash", "pop"] : List String) := by
  refine ⟨?_, git_trace _ _ _, ?_⟩
  · simp only [Command.perform, GitM.bind, hstash]
  · obtain ⟨ext, hext, hS⟩ :=
      stash_branch_changes_no_pop true env [] (Outcome.ok ()) t₁ hstash
    simp only [List.nil_append] at hext
    intro a ha
    rcases List.mem_append.mp ha with h1 | h2
    · exact hS a (hext ▸ h1)
    · simp only [List.mem_singleton] at h2
      subst h2
      intro hcontra
      simp at hcontra

/-- Witness for C7: creating branch `feature` from `main` stages everything,
pushes a keep-staged stash, unstages, then checks out the new branch — and
nothing else. -/
theorem branch_create_keeps_staged_no_restore_witness :
    Command.perform (Command.Branch ("feature")) envAllQuiet []
      = (Outcome.ok (),
         [["rev-parse", "--abbrev-ref", "HEAD"], ["add", "."],
          ["stash", "push", "-k", "-m", "gud_local_changes:main"], ["reset", "."],
          ["checkout", "-b", "feature"]]) :=
  ((branch_create_keeps_staged_no_restore envAllQuiet ("feature")
      ([["rev-parse", "--abbrev-ref", "HEAD"], ["add", "."],
        ["stash", "push", "-k", "-m", "gud_local_changes:main"], ["reset", "."]])
      (by rfl)).1).trans (by rfl)

/-- Claim C6: the divergence counters query the two one-sided commit-range
counts for the resolved current branch — `origin/b..b` for ahead and
`b..origin/b` for behind — return the parsed unsigned integers, turn a parse
failure of either trimmed output into an error result, and the parse fails
exactly when the trimmed output is not a valid non-negative integer. -/
theorem divergence_counts_and_parse_error (env : Env) (nm oa ob : String)
    (h1 : env.respond [] (["rev-parse", "--abbrev-ref", "HEAD"])
        = RawResult.output (Except.ok nm))
    (hA : env.respond ([["rev-parse", "--abbrev-ref", "HEAD"]])
        (["rev-list", "origin/" ++ strTrim nm ++ ".." ++ strTrim nm, "--count"])
        = RawResult.output (Except.ok oa))
    (hB : env.respond ([["rev-parse", "--abbrev-ref", "HEAD"]])
        (["rev-list", strTrim nm ++ "..origin/" ++ strTrim nm, "--count"])
        = RawResult.output (Except.ok ob)) :
    (∀ n, parse_usize (strTrim oa) = Except.ok n →
        commits_ahead env []
          = (Outcome.ok n,
             [["rev-parse", "--abbrev-ref", "HEAD"],
              ["rev-list", "origin/" ++ strTrim nm ++ ".." ++ strTrim nm, "--count"]]))
    ∧ (∀ e, parse_usize (strTrim oa) = Except.error e →
        commits_ahead env []
          = (Outcome.err e,
             [["rev-parse", "--abbrev-ref", "HEAD"],
              ["rev-list", "origin/" ++ strTrim nm ++ ".." ++ strTrim nm, "--count"]]))
    ∧ (∀ n, parse_usize (strTrim ob) = Except.ok n →
        commits_behind env []
          = (Outcome.ok n,
             [["rev-parse", "--abbrev-ref", "HEAD"],
              ["rev-list", strTrim nm ++ "..origin/" ++ strTrim nm, "--count"]]))
    ∧ (∀ e, parse_usize (strTrim ob) = Except.error e →
        commits_behind env []
          = (Outcome.err e,
             [["rev-parse", "--abbrev-ref", "HEAD"],
              ["rev-list", strTrim nm ++ "..origin/" ++ strTrim nm, "--count"]]))
    ∧ (∀ s : String, isParseError (parse_usize s) = !(validNonNegIntSpec s)) := by
  refine ⟨?_, ?_, ?_, ?_, ?_⟩
  · intro n hn
    unfold commits_ahead get_branch_name
    simp only [GitM.bind, git_with_output, GitM.pure, GitM.fail, List.nil_append,
      List.cons_append, List.singleton_append, h1, hA, hn]
  · intro e he
    unfold commits_ahead get_branch_name
    simp only [GitM.bind, git_with_output, GitM.pure, GitM.fail, List.nil_append,
      List.cons_append, List.singleton_append, h1, hA, he]
  · intro n hn
    unfold commits_behind get_branch_name
    simp only [GitM.bind, git_with_output, GitM.pure, GitM.fail, List.nil_append,
      List.cons_append, List.singleton_append, h1, hB, hn]
  · intro e he
    unfold commits_behind get_branch_name
    simp only [GitM.bind, git_with_output, GitM.pure, GitM.fail, List.nil_append,
      List.cons_append, List.singleton_append, h1, hB, he]
  · intro s
    simp only [parse_usize, validNonNegIntSpec]
    generalize stripPlus s.toList = cs
    by_cases hE : cs.isEmpty
    · simp [hE, isParseError]
    · by_cases hD : cs.all Char.isDigit
      · simp [hE, hD, isParseError]
      · simp [hE, hD, isParseError]

/-- Witness for C6: on a branch 2 commits ahead the counter returns 2 from the
`origin/main..main` count query; on a query whose output is a git error text
the counter fails with the parse-error message. -/
theorem divergence_counts_and_parse_error_witness :
    commits_ahead envSyncOk []
      = (Outcome.ok 2,
         [["rev-parse", "--abbrev-ref", "HEAD"],
          ["rev-list", "origin/main..main", "--count"]])
    ∧ commits_ahead envBadCount []
      = (Outcome.err ("invalid digit found in string"),
         [["rev-parse", "--abbrev-ref", "HEAD"],
          ["rev-list", "origin/main..main", "--count"]]) :=
  ⟨(divergence_counts_and_parse_error envSyncOk ("main\n") ("2\n") ("3\n")
      (by rfl) (by rfl) (by rfl)).1 2 (by rfl),
   (divergence_counts_and_parse_error envBadCount ("main\n")
      ("fatal: unknown revision\n") ("fatal: unknown revision\n")
      (by rfl) (by rfl) (by rfl)).2.1 ("invalid digit found in string") (by rfl)⟩

theorem takeWhile_all (p : Char → Bool) :
    ∀ l : List Char, (l.takeWhile p).all p = true := by
  intro l
  induction l with
  | nil => rfl
  | cons c cs ih =>
    cases h : p c with
    | true => simp [List.takeWhile, h, ih]
    | false => simp [List.takeWhile, h]

theorem take_len_append {α : Type} (l₁ l₂ : List α) (n : Nat) (h : n = l₁.length) :
    (l₁ ++ l₂).take n = l₁ := by
  subst h
  exact List.take_left l₁ l₂

theorem drop_len_append {α : Type} (l₁ l₂ : List α) (n : Nat) (h : n = l₁.length) :
    (l₁ ++ l₂).drop n = l₂ := by
  subst h
  exact List.drop_left l₁ l₂

/-- Every record the position-matcher produces has the claimed shape. -/
theorem matchStashAt_shape {l : List Char} {s : Stash} {rest : List Char}
    (h : matchStashAt l = some (s, rest)) : stashRecShape s := by
  unfold matchStashAt at h
  cases h1 : stripLead ("stash@\x7b".toList) l with
  | none => rw [h1] at h; exact absurd h (by simp)
  | some l1 =>
    rw [h1] at h
    simp only at h
    by_cases hds : (l1.takeWhile Char.isDigit).isEmpty
    · rw [if_pos hds] at h; exact absurd h (by simp)
    · rw [if_neg hds] at h
      cases h2 : stripLead ("\x7d: On ".toList) (l1.dropWhile Char.isDigit) with
      | none => rw [h2] at h; exact absurd h (by simp)
      | some l3 =>
        rw [h2] at h
        simp only [Option.some.injEq, Prod.mk.injEq] at h
        obtain ⟨hs, -⟩ := h
        subst hs
        refine ⟨?_, ?_, ?_, ?_, ?_⟩
        · show (("stash@\x7b".toList ++ l1.takeWhile Char.isDigit ++ ['\x7d']).take 7
            = "stash@\x7b".toList)
          rw [List.append_assoc]
          exact take_len_append _ _ 7 (by rfl)
        · show ((("stash@\x7b".toList ++ l1.takeWhile Char.isDigit ++ ['\x7d']).drop 7).getLast?
            = some '\x7d')
          rw [List.append_assoc, drop_len_append _ _ 7 (by rfl)]
          simp
        · show ((("stash@\x7b".toList ++ l1.takeWhile Char.isDigit ++ ['\x7d']).drop 7).dropLast
            ≠ [])
          rw [List.append_assoc, drop_len_append _ _ 7 (by rfl)]
          simp only [List.dropLast_concat]
          simpa using hds
        · show ((("stash@\x7b".toList ++ l1.takeWhile Char.isDigit ++ ['\x7d']).drop 7).dropLast.all
            Char.isDigit = true)
          rw [List.append_assoc, drop_len_append _ _ 7 (by rfl)]
          simp only [List.dropLast_concat]
          exact takeWhile_all _ _
        · show (("On ".toList ++ l3.takeWhile (fun c => c != '\n')).take 3 = "On ".toList)
          exact take_len_append _ _ 3 (by rfl)

theorem scanAux_shape :
    ∀ (fuel : Nat) (l : List Char) (s : Stash), s ∈ scanAux fuel l → stashRecShape s := by
  intro fuel
  induction fuel with
  | zero => intro l s h; simp [scanAux] at h
  | succ n ih =>
    intro l s h
    simp only [scanAux] at h
    cases hm : matchStashAt l with
    | some p =>
      obtain ⟨st, rest⟩ := p
      rw [hm] at h
      have h' : s ∈ st :: scanAux n rest := h
      rcases List.mem_cons.mp h' with h1 | h2
      · subst h1; exact matchStashAt_shape hm
      · exact ih rest s h2
    | none =>
      rw [hm] at h
      cases l with
      | nil => simp at h
      | cons c tl => exact ih tl s h

/-- Claim C8: applied to the two-line listing text of the spec's test, the
parser yields exactly the two records `(stash@\x7b0\x7d, On test_branch:
tag:test_branch)` and `(stash@\x7b1\x7d, On master: tag:master)` in that
order; and in general everything it emits has the shape `stash@\x7bN\x7d`
(non-empty digit run) with a message starting `On ` — text not matching the
pattern is ignored and contributes no record. -/
theorem stash_listing_parser_output :
    scanStashes (("stash@\x7b0\x7d: On test_branch: tag:test_branch\nstash@\x7b1\x7d: On master: tag:master\n").toList)
      = [⟨"stash@\x7b0\x7d", "On test_branch: tag:test_branch"⟩,
         ⟨"stash@\x7b1\x7d", "On master: tag:master"⟩]
    ∧ ∀ (l : List Char) (s : Stash), s ∈ scanStashes l → stashRecShape s := by
  constructor
  · decide
  · intro l s h
    exact scanAux_shape l.length l s h

/-- Witness for C8: the first record of the spec's test listing, produced by
the parser, has the required reference-and-message shape. -/
theorem stash_listing_parser_output_witness :
    stashRecShape (⟨"stash@\x7b0\x7d", "On test_branch: tag:test_branch"⟩ : Stash) :=
  stash_listing_parser_output.2
    (("stash@\x7b0\x7d: On test_branch: tag:test_branch\nstash@\x7b1\x7d: On master: tag:master\n").toList)
    (⟨"stash@\x7b0\x7d", "On test_branch: tag:test_branch"⟩) (by decide)

/-- Counterexample to claim C9 as stated: in an environment whose launched
process produces output that cannot be decoded as text, the Primitive Runner
does not fail with an error result at all — it panics (the `unwrap` on
`String::from_utf8`), and the status verb accordingly ends in a panic, not in
the verb's error result. -/
theorem decode_failure_not_error_result :
    git_with_output (["status", "--short"]) envUndecodable []
      = (Outcome.panicked ("invalid utf-8 sequence of 1 bytes from index 0"),
         [["status", "--short"]])
    ∧ (git_with_output (["status", "--short"]) envUndecodable []).1
        ≠ Outcome.err ("invalid utf-8 sequence of 1 bytes from index 0")
    ∧ Command.perform (Command.Status) envUndecodable []
      = (Outcome.panicked ("invalid utf-8 sequence of 1 bytes from index 0"),
         [["rev-parse", "--abbrev-ref", "HEAD"]]) :=
  ⟨rfl, by decide, rfl⟩

/-- Claim C9 (amended): when the external tool launches but its captured
stdout cannot be decoded as text, the Primitive Runner panics with the decode
message (aborting the verb without returning a result); it is a process-launch
failure that yields the Execution Error carried as the current verb's error
result. -/
theorem runner_decode_panic_launch_error (env : Env) (t : List Args) (args : Args) (m : String) :
    (env.respond t args = RawResult.output (Except.error m) →
      git_with_output args env t = (Outcome.panicked m, t ++ [args]))
    ∧ (env.respond t args = RawResult.launchFailure m →
      git_with_output args env t = (Outcome.err m, t ++ [args])) := by
  constructor
  · intro h
    simp only [git_with_output, h]
  · intro h
    simp only [git_with_output, h]

/-- Witness for amended C9: a run with undecodable output panics; a run whose
process cannot launch yields the error result. -/
theorem runner_decode_panic_launch_error_witness :
    git_with_output (["stash", "list"]) envUndecodable []
      = (Outcome.panicked ("invalid utf-8 sequence of 1 bytes from index 0"),
         [["stash", "list"]])
    ∧ git_with_output (["stash", "list"]) envNoGit []
      = (Outcome.err ("No such file or directory (os error 2)"), [["stash", "list"]]) :=
  ⟨(runner_decode_panic_launch_error envUndecodable [] (["stash", "list"])
      ("invalid utf-8 sequence of 1 bytes from index 0")).1 (by rfl),
   (runner_decode_panic_launch_error envNoGit [] (["stash", "list"])
      ("No such file or directory (os error 2)")).2 (by rfl)⟩
